import Mathlib

/-!
Shallow embedding of `refinery.py`: a retry-with-feedback orchestration layer
(`Predictor`, `FeedbackModule`, `Validation`, `RetryAdapter`, `Retrier`) over an
external prediction engine (dspy).

Modelling conventions:
* Scores/thresholds (Python floats used only in `>=` comparisons) are `ℚ`.
* A signature is its ordered list of input-field names; `Signature.append`
  (dspy, external) appends one field, producing a derived signature.
* The ambient `dspy.settings.adapter` is `Option Adapter` state, threaded
  explicitly; `dspy.context(adapter=...)` (external) sets it for the dynamic
  extent of the wrapped call and restores the saved value on every exit path;
  `contextlib.nullcontext()` leaves it unchanged.
* The abstract prediction engine behind `Predictor.forward` is a function of a
  call counter (modelling nondeterminism across calls) and of the `Request`
  that the active adapter builds; fallible calls return `Except`.
* `Err.validationError` models the `AssertionError("Output failed to pass
  validation")` of `Predictor.__call__`; `Err.retryExhausted` models the
  `RuntimeError("Could not obtain proper result")` of `Retrier.forward`.
* Execution is instrumented: each `Retrier` attempt produces an `AttemptLog`
  recording the augmentation used, the adapter during the call, the engine
  requests issued, the outcome, and the ambient adapter after the scope closed.
-/

/-- Input-field names of a signature, in order (dspy `Signature`, external). -/
abbrev Sig := List String

/-- Input payload: field name to value bindings (`Input.toDict`). -/
abbrev Inputs := List (String × String)

/-- One model request as handed to the base adapter: the (possibly derived)
signature and the input payload. -/
structure Request where
  sig : Sig
  inputs : Inputs
deriving DecidableEq, Repr

/-- The active request-construction mechanism: either a base adapter
(`dspy.ChatAdapter` or equivalent) or a `RetryAdapter` wrapping another adapter
with a feedback string (refinery.py lines 91-103). -/
inductive Adapter where
  | chat : Adapter
  | retry (adapter : Adapter) (feedback : String) : Adapter
deriving DecidableEq, Repr

/-- Python `dict | {k: v}`: update `k` in place if present, else append. -/
def dictInsert (l : Inputs) (k v : String) : Inputs :=
  if l.any (fun p => p.1 == k) then
    l.map (fun p => if p.1 == k then (k, v) else p)
  else
    l ++ [(k, v)]

/-- `RetryAdapter.__call__` (lines 99-103): a base adapter hands the request
straight through; a retry adapter appends the extra input field `hint_` to the
signature, injects its feedback string into the payload under `hint_`, and
delegates to the wrapped adapter. -/
def Adapter.buildRequest : Adapter → Sig → Inputs → Request
  | .chat, sig, ins => ⟨sig, ins⟩
  | .retry a fb, sig, ins => a.buildRequest (sig ++ ["hint_"]) (dictInsert ins "hint_" fb)

/-- Errors surfaced by the core (see the error-kind abstraction above). -/
inductive Err where
  | validationError : Err
  | retryExhausted : Err
  | engineFailure (code : Nat) : Err
deriving DecidableEq, Repr

/-- `Feedback` (lines 25-34): a score and an optional note. -/
structure Feedback where
  evaluation : ℚ
  feedback : Option String
deriving DecidableEq, Repr

/-- `Validation` (lines 53-71): a feedback module with a fixed threshold.
A `FeedbackModule` is its pure `(input, output) ↦ Feedback` map (spec 4.2). -/
structure Validation (O : Type) where
  feedback_module : Inputs → O → Feedback
  validation_threshold : ℚ

/-- `Validation.forward` (lines 66-68): score the pair, pass iff
`evaluation >= validation_threshold`. -/
def Validation.forward {O : Type} (v : Validation O) (input : Inputs) (output : O) : Bool :=
  decide (v.validation_threshold ≤ (v.feedback_module input output).evaluation)

/-- `Predictor` (lines 74-88): its abstract `forward` is one prediction-engine
invocation through the active adapter; `engine` takes a global call counter so
distinct invocations may return distinct results, and the `Request` built by
the active adapter; `sig` is the predictor's signature. -/
structure Predictor (O : Type) where
  engine : Nat → Request → Except Err O
  sig : Sig
  validation : Option (Validation O)

/-- `dspy.settings.adapter or dspy.ChatAdapter()` (line 128, and the same
resolution inside the engine's request construction). -/
def resolveAdapter (st : Option Adapter) : Adapter :=
  st.getD Adapter.chat

/-- `Predictor.__call__` (lines 84-88), instrumented with the list of engine
requests issued. `st` is the ambient adapter, `k` the engine-call counter.
Faithful to the source: `forward` is called a first time, the result gated
through `validation` when present (`AssertionError` ↦ `Err.validationError`),
and then `forward` is called a second time and that second result returned. -/
def Predictor.call {O : Type} (p : Predictor O) (st : Option Adapter) (input : Inputs)
    (k : Nat) : Except Err O × List Request :=
  match p.engine k ((resolveAdapter st).buildRequest p.sig input) with
  | .error e => (.error e, [(resolveAdapter st).buildRequest p.sig input])
  | .ok output =>
    match p.validation with
    | some v =>
      if v.forward input output then
        (p.engine (k + 1) ((resolveAdapter st).buildRequest p.sig input),
         [(resolveAdapter st).buildRequest p.sig input,
          (resolveAdapter st).buildRequest p.sig input])
      else
        (.error .validationError, [(resolveAdapter st).buildRequest p.sig input])
    | none =>
      (p.engine (k + 1) ((resolveAdapter st).buildRequest p.sig input),
       [(resolveAdapter st).buildRequest p.sig input,
        (resolveAdapter st).buildRequest p.sig input])

/-- `Retrier.retry_context` (lines 123-134) as its effect on the ambient
adapter inside the scope: a false-y (`None`/empty) feedback string yields
`contextlib.nullcontext()` (no change); otherwise the adapter is set to a
`RetryAdapter` over `dspy.settings.adapter or dspy.ChatAdapter()`. -/
def retry_context (st : Option Adapter) : Option String → Option Adapter
  | none => st
  | some s => if s == "" then st else some (Adapter.retry (resolveAdapter st) s)

/-- The hint actually carried by the scope `retry_context` opens: `none` for a
false-y note (passthrough), the note itself otherwise. -/
def normHint : Option String → Option String
  | none => none
  | some s => if s == "" then none else some s

/-- Python truthiness test `not feedback` on an optional string. -/
def isBlank : Option String → Bool
  | none => true
  | some s => s == ""

/-- Log of one `Retrier` attempt: the augmentation hint in force (`none` =
passthrough scope), the ambient adapter during the predictor call, the engine
requests issued, the outcome (`ok` pairs the output with the feedback computed
for it; `error` if the predictor call raised), and the ambient adapter after
the augmentation scope was closed (which is when feedback is computed). -/
structure AttemptLog (O : Type) where
  hint : Option String
  adapterDuring : Option Adapter
  requests : List Request
  outcome : Except Err (O × Feedback)
  adapterAfterScope : Option Adapter

/-- The feedback note produced by an attempt (none if the attempt raised). -/
def noteOf {O : Type} (log : AttemptLog O) : Option String :=
  match log.outcome with
  | .ok (_, fb) => fb.feedback
  | .error _ => none

/-- Result of a `Retrier.forward` run: the returned value or raised error, the
per-attempt logs in order, and the ambient adapter when the call ends. -/
structure LoopRes (O : Type) where
  result : Except Err O
  attempts : List (AttemptLog O)
  adapter : Option Adapter

/-- `Retrier` (lines 106-121). `N` is a Python `int`, so it may be ≤ 0. -/
structure Retrier (O : Type) where
  module : Predictor O
  feedback_module : Inputs → O → Feedback
  N : Int
  threshold : ℚ

/-- One iteration of the loop body of `Retrier.forward` (lines 140-142):
open the scope derived from the prior feedback's note, call the predictor
inside it, close the scope (restoring `st`, also when the call raised), then
compute the feedback for a returned output. -/
def Retrier.attempt {O : Type} (R : Retrier O) (input : Inputs) (st : Option Adapter)
    (prior : Option Feedback) (k : Nat) : AttemptLog O :=
  match R.module.call (retry_context st (prior.bind Feedback.feedback)) input k with
  | (.error e, reqs) =>
    ⟨normHint (prior.bind Feedback.feedback),
     retry_context st (prior.bind Feedback.feedback), reqs, .error e, st⟩
  | (.ok output, reqs) =>
    ⟨normHint (prior.bind Feedback.feedback),
     retry_context st (prior.bind Feedback.feedback), reqs,
     .ok (output, R.feedback_module input output), st⟩

/-- The `for _ in range(self.N)` loop of `Retrier.forward` (lines 138-145),
as fuel recursion (`fuel` = remaining iterations, so `range(N)` is fuel
`N.toNat`). A raised predictor error propagates at once with the scope already
restored; a feedback score `>= threshold` returns that attempt's output;
otherwise the attempt's feedback becomes `prior` for the next iteration;
exhausted fuel raises `Err.retryExhausted`. -/
def Retrier.loop {O : Type} (R : Retrier O) (input : Inputs) :
    Option Adapter → Option Feedback → Nat → Nat → LoopRes O
  | st, _, _, 0 => ⟨.error .retryExhausted, [], st⟩
  | st, prior, k, fuel + 1 =>
    match (R.attempt input st prior k).outcome with
    | .error e => ⟨.error e, [R.attempt input st prior k], st⟩
    | .ok (output, fb) =>
      if R.threshold ≤ fb.evaluation then
        ⟨.ok output, [R.attempt input st prior k], st⟩
      else
        ⟨(R.loop input st (some fb) (k + (R.attempt input st prior k).requests.length) fuel).result,
         R.attempt input st prior k ::
           (R.loop input st (some fb) (k + (R.attempt input st prior k).requests.length) fuel).attempts,
         (R.loop input st (some fb) (k + (R.attempt input st prior k).requests.length) fuel).adapter⟩

/-- `Retrier.forward` (lines 136-145), run from ambient adapter `st` with no
prior feedback and engine-call counter 0. -/
def Retrier.forward {O : Type} (R : Retrier O) (input : Inputs) (st : Option Adapter) :
    LoopRes O :=
  R.loop input st none 0 R.N.toNat

/-- Checks that each attempt's hint is the normalized note of the attempt just
before it (the first attempt's against `prev`), i.e. hints are threaded from
exactly the immediately preceding attempt's feedback. -/
def hintsChained {O : Type} : Option String → List (AttemptLog O) → Bool
  | _, [] => true
  | prev, log :: rest =>
    decide (log.hint = normHint prev) && hintsChained (noteOf log) rest

/-! ### Concrete instances (mirroring the QA example of `main.py`) -/

/-- A concrete input, as in `main.py`'s trainset. -/
def qaInput : Inputs := [("question", "What land animal has a shell?")]

/-- A validation that accepts everything (score 1, threshold 0). -/
def c1Validation : Validation Nat := ⟨fun _ _ => ⟨1, none⟩, 0⟩

/-- A predictor whose engine returns the index of the engine call, so distinct
invocations are observable in the returned output. -/
def c1Predictor : Predictor Nat := ⟨fun k _ => .ok k, ["question"], some c1Validation⟩

/-- A retrier whose feedback always scores 0 with note `"X"` against
threshold 1, over an engine that always succeeds, with `N = 2`. -/
def c2R : Retrier Nat :=
  ⟨⟨fun _ _ => .ok 0, ["question"], none⟩, fun _ _ => ⟨0, some "X"⟩, 2, 1⟩

/-- A validation whose feedback module always scores 0 against threshold 1,
so it rejects every output. -/
def c3Validation : Validation Nat := ⟨fun _ _ => ⟨0, some "bad"⟩, 1⟩

/-- A predictor carrying `c3Validation`, over an engine that always returns 7. -/
def c3Predictor : Predictor Nat := ⟨fun _ _ => .ok 7, ["question"], some c3Validation⟩

/-- A retrier over an engine returning the call index, whose feedback scores
exactly the threshold on outputs ≥ 3 and 0 (with note `"X"`) otherwise, so
attempt 1 fails and attempt 2 is the first attempt whose score meets the
threshold. -/
def c6R : Retrier Nat :=
  ⟨⟨fun k _ => .ok k, ["question"], none⟩,
   fun _ o => if 3 ≤ o then ⟨1, none⟩ else ⟨0, some "X"⟩, 3, 1⟩

/-- The second attempt of the `c6R` run: the first passing one. -/
def c6Log : AttemptLog Nat := c6R.attempt qaInput none (some ⟨0, some "X"⟩) 2

/-- A retrier whose engine succeeds on the first attempt (engine calls 0, 1)
and raises on the second attempt (engine call 2), with `N = 3`. -/
def c8R : Retrier Nat :=
  ⟨⟨fun k _ => if k < 2 then .ok 0 else .error (.engineFailure 9), ["question"], none⟩,
   fun _ _ => ⟨0, some "X"⟩, 3, 1⟩

/-- The second attempt of the `c8R` run: its predictor call raises. -/
def c8Log : AttemptLog Nat := c8R.attempt qaInput none (some ⟨0, some "X"⟩) 2

/-- A retrier constructed with `N = 0`, violating the precondition `N ≥ 1`. -/
def c10R : Retrier Nat :=
  ⟨⟨fun _ _ => .ok 0, ["question"], none⟩, fun _ _ => ⟨1, none⟩, 0, 1⟩

/-! ### Basic facts about one attempt -/

theorem Retrier.attempt_adapterAfterScope {O : Type} (R : Retrier O) (input : Inputs)
    (st : Option Adapter) (prior : Option Feedback) (k : Nat) :
    (R.attempt input st prior k).adapterAfterScope = st := by
  unfold Retrier.attempt
  cases h : R.module.call (retry_context st (prior.bind Feedback.feedback)) input k with
  | mk res reqs => cases res <;> rfl

theorem Retrier.attempt_hint {O : Type} (R : Retrier O) (input : Inputs)
    (st : Option Adapter) (prior : Option Feedback) (k : Nat) :
    (R.attempt input st prior k).hint = normHint (prior.bind Feedback.feedback) := by
  unfold Retrier.attempt
  cases h : R.module.call (retry_context st (prior.bind Feedback.feedback)) input k with
  | mk res reqs => cases res <;> rfl

theorem Retrier.attempt_adapterDuring {O : Type} (R : Retrier O) (input : Inputs)
    (st : Option Adapter) (prior : Option Feedback) (k : Nat) :
    (R.attempt input st prior k).adapterDuring
      = retry_context st (prior.bind Feedback.feedback) := by
  unfold Retrier.attempt
  cases h : R.module.call (retry_context st (prior.bind Feedback.feedback)) input k with
  | mk res reqs => cases res <;> rfl

theorem Retrier.attempt_requests {O : Type} (R : Retrier O) (input : Inputs)
    (st : Option Adapter) (prior : Option Feedback) (k : Nat) :
    (R.attempt input st prior k).requests
      = (R.module.call (retry_context st (prior.bind Feedback.feedback)) input k).2 := by
  unfold Retrier.attempt
  cases h : R.module.call (retry_context st (prior.bind Feedback.feedback)) input k with
  | mk res reqs => cases res <;> rfl

theorem Retrier.attempt_outcome_error {O : Type} (R : Retrier O) (input : Inputs)
    (st : Option Adapter) (prior : Option Feedback) (k : Nat) (e : Err) :
    (R.attempt input st prior k).outcome = .error e ↔
      (R.module.call (retry_context st (prior.bind Feedback.feedback)) input k).1
        = .error e := by
  unfold Retrier.attempt
  cases h : R.module.call (retry_context st (prior.bind Feedback.feedback)) input k with
  | mk res reqs => cases res <;> simp_all

theorem Retrier.attempt_outcome_ok {O : Type} (R : Retrier O) (input : Inputs)
    (st : Option Adapter) (prior : Option Feedback) (k : Nat) (o : O) (fb : Feedback) :
    (R.attempt input st prior k).outcome = .ok (o, fb) ↔
      ((R.module.call (retry_context st (prior.bind Feedback.feedback)) input k).1
          = .ok o ∧ fb = R.feedback_module input o) := by
  unfold Retrier.attempt
  cases h : R.module.call (retry_context st (prior.bind Feedback.feedback)) input k with
  | mk res reqs =>
    cases res with
    | error e => simp_all
    | ok o' =>
      simp only [Except.ok.injEq, Prod.mk.injEq]
      constructor <;> (rintro ⟨h1, h2⟩; subst h1; exact ⟨rfl, h2.symm⟩)

/-! ### Request construction helpers -/

/-- The request a given hint leads to, for ambient adapter `None`: the plain
request, or the one derived signature + injected `hint_` payload entry. -/
def hintRequest (sig : Sig) (input : Inputs) : Option String → Request
  | none => ⟨sig, input⟩
  | some s => ⟨sig ++ ["hint_"], input ++ [("hint_", s)]⟩

theorem dictInsert_absent (l : Inputs) (k0 v : String)
    (h : l.all (fun p => p.1 != k0) = true) : dictInsert l k0 v = l ++ [(k0, v)] := by
  have hany : l.any (fun p => p.1 == k0) = false := by
    simp only [List.all_eq_true, bne_iff_ne, ne_eq] at h
    simp only [List.any_eq_false, beq_iff_eq]
    intro p hp
    exact h p hp
  unfold dictInsert
  rw [hany]
  simp


theorem Predictor.call_requests {O : Type} (p : Predictor O) (st : Option Adapter)
    (input : Inputs) (k : Nat) :
    ∀ r ∈ (p.call st input k).2, r = (resolveAdapter st).buildRequest p.sig input := by
  intro r hr
  unfold Predictor.call at hr
  split at hr
  · simpa using hr
  · split at hr
    · split at hr
      · simp only [List.mem_cons, List.mem_singleton, List.not_mem_nil, or_false,
          or_self] at hr
        exact hr
      · simpa using hr
    · simp only [List.mem_cons, List.mem_singleton, List.not_mem_nil, or_false,
        or_self] at hr
      exact hr

theorem retry_context_none (note : Option String) :
    retry_context none note = (normHint note).map (Adapter.retry Adapter.chat) := by
  cases note with
  | none => rfl
  | some s =>
    by_cases hs : s == ""
    · simp [retry_context, normHint, hs]
    · simp [retry_context, normHint, hs, resolveAdapter]

theorem Retrier.attempt_requests_shape {O : Type} (R : Retrier O) (input : Inputs)
    (prior : Option Feedback) (k : Nat)
    (hK : input.all (fun p => p.1 != "hint_") = true) :
    ∀ r ∈ (R.attempt input none prior k).requests,
      r = hintRequest R.module.sig input (R.attempt input none prior k).hint := by
  intro r hr
  rw [Retrier.attempt_requests] at hr
  rw [Retrier.attempt_hint]
  have hre := R.module.call_requests (retry_context none (prior.bind Feedback.feedback)) input k r hr
  rw [hre, retry_context_none]
  cases hn : normHint (prior.bind Feedback.feedback) with
  | none => simp [resolveAdapter, Adapter.buildRequest, hintRequest]
  | some s =>
    simp only [Option.map_some', resolveAdapter, Option.getD_some, hintRequest]
    show Adapter.chat.buildRequest (R.module.sig ++ ["hint_"]) (dictInsert input "hint_" s) = _
    rw [Adapter.buildRequest, dictInsert_absent input "hint_" s hK]

/-! ### Loop invariants -/

theorem Retrier.loop_adapter {O : Type} (R : Retrier O) (input : Inputs) :
    ∀ (fuel : Nat) (st : Option Adapter) (prior : Option Feedback) (k : Nat),
      (R.loop input st prior k fuel).adapter = st := by
  intro fuel
  induction fuel with
  | zero => intro st prior k; rfl
  | succ n ih =>
    intro st prior k
    simp only [Retrier.loop]
    split
    · rfl
    · split
      · rfl
      · exact ih st _ _

theorem Retrier.loop_afterScope {O : Type} (R : Retrier O) (input : Inputs) :
    ∀ (fuel : Nat) (st : Option Adapter) (prior : Option Feedback) (k : Nat),
      ∀ log ∈ (R.loop input st prior k fuel).attempts, log.adapterAfterScope = st := by
  intro fuel
  induction fuel with
  | zero => intro st prior k log hlog; simp [Retrier.loop] at hlog
  | succ n ih =>
    intro st prior k log hlog
    simp only [Retrier.loop] at hlog
    split at hlog
    · simp only [List.mem_singleton] at hlog
      rw [hlog]
      exact R.attempt_adapterAfterScope input st prior k
    · split at hlog
      · simp only [List.mem_singleton] at hlog
        rw [hlog]
        exact R.attempt_adapterAfterScope input st prior k
      · simp only [List.mem_cons] at hlog
        rcases hlog with hlog | hlog
        · rw [hlog]
          exact R.attempt_adapterAfterScope input st prior k
        · exact ih st _ _ log hlog

theorem Retrier.loop_chained {O : Type} (R : Retrier O) (input : Inputs) :
    ∀ (fuel : Nat) (st : Option Adapter) (prior : Option Feedback) (k : Nat),
      hintsChained (prior.bind Feedback.feedback)
        (R.loop input st prior k fuel).attempts = true := by
  intro fuel
  induction fuel with
  | zero => intro st prior k; rfl
  | succ n ih =>
    intro st prior k
    simp only [Retrier.loop]
    split
    · simp [hintsChained, Retrier.attempt_hint]
    next output fb heq =>
      split
      · simp [hintsChained, Retrier.attempt_hint]
      · simp only [hintsChained, Retrier.attempt_hint]
        rw [Bool.and_eq_true]
        constructor
        · simp
        · have hnote : noteOf (R.attempt input st prior k) = fb.feedback := by
            unfold noteOf
            rw [heq]
          rw [hnote]
          simpa using ih st (some fb) (k + (R.attempt input st prior k).requests.length)

theorem Retrier.loop_requests_shape {O : Type} (R : Retrier O) (input : Inputs)
    (hK : input.all (fun p => p.1 != "hint_") = true) :
    ∀ (fuel : Nat) (prior : Option Feedback) (k : Nat),
      ∀ log ∈ (R.loop input none prior k fuel).attempts,
        ∀ r ∈ log.requests, r = hintRequest R.module.sig input log.hint := by
  intro fuel
  induction fuel with
  | zero => intro prior k log hlog; simp [Retrier.loop] at hlog
  | succ n ih =>
    intro prior k log hlog
    simp only [Retrier.loop] at hlog
    split at hlog
    · simp only [List.mem_singleton] at hlog
      rw [hlog]
      exact R.attempt_requests_shape input prior k hK
    · split at hlog
      · simp only [List.mem_singleton] at hlog
        rw [hlog]
        exact R.attempt_requests_shape input prior k hK
      · simp only [List.mem_cons] at hlog
        rcases hlog with hlog | hlog
        · rw [hlog]
          exact R.attempt_requests_shape input prior k hK
        · exact ih _ _ log hlog

theorem Retrier.loop_exhaust {O : Type} (R : Retrier O) (input : Inputs)
    (hLow : ∀ o : O, (R.feedback_module input o).evaluation < R.threshold)
    (hOk : ∀ (st' : Option Adapter) (k' : Nat),
      ∃ o, (R.module.call st' input k').1 = Except.ok o) :
    ∀ (fuel : Nat) (st : Option Adapter) (prior : Option Feedback) (k : Nat),
      (R.loop input st prior k fuel).result = .error .retryExhausted ∧
        (R.loop input st prior k fuel).attempts.length = fuel := by
  intro fuel
  induction fuel with
  | zero => intro st prior k; exact ⟨rfl, rfl⟩
  | succ n ih =>
    intro st prior k
    simp only [Retrier.loop]
    split
    next e heq =>
      obtain ⟨o, ho⟩ := hOk (retry_context st (prior.bind Feedback.feedback)) k
      rw [(R.attempt_outcome_error input st prior k e).mp heq] at ho
      simp at ho
    next output fb heq =>
      obtain ⟨hcall, hfb⟩ := (R.attempt_outcome_ok input st prior k output fb).mp heq
      split
      next hth =>
        rw [hfb] at hth
        exact absurd hth (not_le.mpr (hLow output))
      next hth =>
        obtain ⟨h1, h2⟩ := ih st (some fb) (k + (R.attempt input st prior k).requests.length)
        exact ⟨h1, by simp [h2]⟩

theorem Retrier.loop_error_abort {O : Type} (R : Retrier O) (input : Inputs) :
    ∀ (fuel : Nat) (st : Option Adapter) (prior : Option Feedback) (k : Nat),
      ∀ log ∈ (R.loop input st prior k fuel).attempts, ∀ e : Err,
        log.outcome = .error e →
          (R.loop input st prior k fuel).result = .error e ∧
            (R.loop input st prior k fuel).attempts.getLast? = some log := by
  intro fuel
  induction fuel with
  | zero => intro st prior k log hlog; simp [Retrier.loop] at hlog
  | succ n ih =>
    intro st prior k log hlog e hout
    simp only [Retrier.loop] at hlog ⊢
    split at hlog
    next e0 heq =>
      simp only [List.mem_singleton] at hlog
      subst hlog
      rw [heq] at hout
      injection hout with hout
      subst hout
      simp [heq]
    next output fb heq =>
      split at hlog
      next hth =>
        simp only [List.mem_singleton] at hlog
        subst hlog
        rw [heq] at hout
        exact absurd hout (by simp)
      next hth =>
        simp only [List.mem_cons] at hlog
        rcases hlog with hlog | hlog
        · subst hlog
          rw [heq] at hout
          exact absurd hout (by simp)
        · obtain ⟨h1, h2⟩ := ih st (some fb)
            (k + (R.attempt input st prior k).requests.length) log hlog e hout
          simp only [if_neg hth]
          refine ⟨h1, ?_⟩
          cases hr : (R.loop input st (some fb)
              (k + (R.attempt input st prior k).requests.length) n).attempts with
          | nil => rw [hr] at h2; simp at h2
          | cons b l =>
            rw [hr] at h2
            rw [List.getLast?_cons_cons]
            exact h2

theorem Retrier.loop_attempts_ne_nil {O : Type} (R : Retrier O) (input : Inputs)
    (n : Nat) (st : Option Adapter) (prior : Option Feedback) (k : Nat) :
    (R.loop input st prior k (n + 1)).attempts ≠ [] := by
  simp only [Retrier.loop]
  split
  · simp
  · split <;> simp

theorem Retrier.loop_succ_ok {O : Type} (R : Retrier O) (input : Inputs)
    (st : Option Adapter) (prior : Option Feedback) (k n : Nat) (o : O) (fb : Feedback)
    (hout : (R.attempt input st prior k).outcome = .ok (o, fb)) :
    R.loop input st prior k (n + 1) =
      if R.threshold ≤ fb.evaluation then
        ⟨.ok o, [R.attempt input st prior k], st⟩
      else
        ⟨(R.loop input st (some fb) (k + (R.attempt input st prior k).requests.length) n).result,
         R.attempt input st prior k ::
           (R.loop input st (some fb) (k + (R.attempt input st prior k).requests.length) n).attempts,
         (R.loop input st (some fb) (k + (R.attempt input st prior k).requests.length) n).adapter⟩ := by
  simp only [Retrier.loop]
  split
  next e heq => rw [heq] at hout; exact absurd hout (by simp)
  next o2 fb2 heq =>
    rw [heq] at hout
    injection hout with hout
    injection hout with h1 h2
    subst h1
    subst h2
    rfl

theorem Retrier.loop_succ_error {O : Type} (R : Retrier O) (input : Inputs)
    (st : Option Adapter) (prior : Option Feedback) (k n : Nat) (e : Err)
    (hout : (R.attempt input st prior k).outcome = .error e) :
    R.loop input st prior k (n + 1) = ⟨.error e, [R.attempt input st prior k], st⟩ := by
  simp only [Retrier.loop]
  split
  next e2 heq =>
    rw [heq] at hout
    injection hout with hout
    subst hout
    rfl
  next o2 fb2 heq => rw [heq] at hout; exact absurd hout (by simp)

theorem normHint_of_blank (o : Option String) (h : isBlank o = true) : normHint o = none := by
  cases o with
  | none => rfl
  | some s =>
    have hb : (s == "") = true := by simpa [isBlank] using h
    simp [normHint, hb]

theorem normHint_some_ne (s : String) (hs : s ≠ "") : normHint (some s) = some s := by
  have hb : (s == "") = false := beq_eq_false_iff_ne.mpr hs
  simp [normHint, hb]

theorem hintsChained_chain {O : Type} (l : List (AttemptLog O)) :
    ∀ prev, hintsChained prev l = true →
      l.Chain' (fun a b => b.hint = normHint (noteOf a)) := by
  induction l with
  | nil => intro prev h; exact List.chain'_nil
  | cons a l ih =>
    intro prev h
    unfold hintsChained at h
    rw [Bool.and_eq_true] at h
    have hch := ih (noteOf a) h.2
    cases l with
    | nil => simp
    | cons b l2 =>
      rw [List.chain'_cons]
      refine ⟨?_, hch⟩
      have h2 := h.2
      unfold hintsChained at h2
      rw [Bool.and_eq_true] at h2
      simpa using h2.1

theorem hintsChained_head {O : Type} (prev : Option String) (l : List (AttemptLog O))
    (h : hintsChained prev l = true) :
    ∀ log, l.head? = some log → log.hint = normHint prev := by
  intro log hhead
  cases l with
  | nil => simp at hhead
  | cons a l2 =>
    simp only [List.head?_cons, Option.some.injEq] at hhead
    subst hhead
    unfold hintsChained at h
    rw [Bool.and_eq_true] at h
    simpa using h.1

/-! ### Claim theorems -/

/-- C1: the claim states that one `Predictor.__call__` performs exactly one
prediction-engine invocation and returns the output that invocation produced
(the one the validation gate checked). The code (refinery.py line 88) instead
calls `forward` a second time and returns that second, unchecked output: on
`c1Predictor`, whose engine returns the engine-call index, a single call issues
two engine requests, the validation gate checks output 0, and the call returns
output 1 — not the output the gate checked. -/
theorem predictor_call_double_forward :
    (c1Predictor.call none qaInput 0).2.length = 2 ∧
    (c1Predictor.call none qaInput 0).1 = Except.ok 1 ∧
    c1Predictor.engine 0 (Adapter.chat.buildRequest c1Predictor.sig qaInput) = Except.ok 0 ∧
    (c1Predictor.call none qaInput 0).1
      ≠ c1Predictor.engine 0 (Adapter.chat.buildRequest c1Predictor.sig qaInput) := by
  refine ⟨rfl, rfl, rfl, ?_⟩
  intro h
  have h2 : (Except.ok 1 : Except Err Nat) = Except.ok 0 := h
  injection h2 with h3
  exact absurd h3 (by decide)

/-- C2: for every `N ≥ 1`, if the feedback module scores strictly below the
threshold on every output (and every predictor invocation returns an output),
`Retrier.forward` performs exactly `N` predictor invocations (= attempts) and
then fails with the exhaustion error — raised, never converted to an output. -/
theorem retrier_exhausts_after_N {O : Type} (R : Retrier O) (input : Inputs)
    (st : Option Adapter) (hN : 1 ≤ R.N)
    (hLow : ∀ o : O, (R.feedback_module input o).evaluation < R.threshold)
    (hOk : ∀ (st2 : Option Adapter) (k : Nat),
      ∃ o, (R.module.call st2 input k).1 = Except.ok o) :
    (R.forward input st).result = Except.error Err.retryExhausted ∧
      ((R.forward input st).attempts.length : Int) = R.N := by
  obtain ⟨h1, h2⟩ := R.loop_exhaust input hLow hOk R.N.toNat st none 0
  refine ⟨h1, ?_⟩
  have h3 : (R.forward input st).attempts.length = R.N.toNat := h2
  rw [h3]
  omega

/-- Witness for C2: `c2R` (always score 0 < threshold 1, note `"X"`, `N = 2`)
exhausts after exactly 2 attempts. -/
theorem retrier_exhausts_after_N_witness :
    (c2R.forward qaInput none).result = Except.error Err.retryExhausted ∧
      ((c2R.forward qaInput none).attempts.length : Int) = c2R.N :=
  retrier_exhausts_after_N c2R qaInput none (by decide)
    (fun o => by norm_num [c2R]) (fun st2 k => ⟨0, rfl⟩)

/-- C3: a predictor constructed with a validation collaborator raises the
validation error whenever the check rejects the produced output (in
particular whenever the validation's feedback module always scores below
`validation_threshold`): the call fails rather than returning an output. -/
theorem predictor_validation_gate {O : Type} (p : Predictor O) (v : Validation O)
    (st : Option Adapter) (input : Inputs) (k : Nat) (o : O)
    (hv : p.validation = some v)
    (hOk : p.engine k ((resolveAdapter st).buildRequest p.sig input) = Except.ok o)
    (hFail : v.forward input o = false) :
    (p.call st input k).1 = Except.error Err.validationError := by
  simp [Predictor.call, hOk, hv, hFail]

/-- Witness for C3: `c3Predictor` (validation threshold 1, feedback always
scoring 0) raises the validation error on a direct call. -/
theorem predictor_validation_gate_witness :
    (c3Predictor.call none qaInput 0).1 = Except.error Err.validationError :=
  predictor_validation_gate c3Predictor c3Validation none qaInput 0 7 rfl rfl (by decide)

/-- C5: after `Retrier.forward` (return or raise) the ambient adapter equals
exactly what it was before the call, and within every attempt the augmentation
scope is torn down — the ambient adapter is back to its pre-call value — at the
point the feedback is computed, on every exit path of the predictor call. -/
theorem retrier_scope_isolation {O : Type} (R : Retrier O) (input : Inputs)
    (st : Option Adapter) :
    (R.forward input st).adapter = st ∧
      ∀ log ∈ (R.forward input st).attempts, log.adapterAfterScope = st :=
  ⟨R.loop_adapter input R.N.toNat st none 0, R.loop_afterScope input R.N.toNat st none 0⟩

/-- C7: `Validation.forward` returns true iff the wrapped feedback module's
score for the pair is at least the `validation_threshold` fixed at
construction. -/
theorem validation_check_iff {O : Type} (v : Validation O) (input : Inputs) (output : O) :
    v.forward input output = true ↔
      v.validation_threshold ≤ (v.feedback_module input output).evaluation := by
  simp [Validation.forward]

/-- C10: with `N ≤ 0` the loop body never runs: `Retrier.forward` raises the
exhaustion error immediately, with no predictor invocation, no feedback
evaluation, no augmentation scope (no attempts at all), and the ambient
adapter untouched. -/
theorem retrier_nonpositive_N {O : Type} (R : Retrier O) (input : Inputs)
    (st : Option Adapter) (hN : R.N ≤ 0) :
    (R.forward input st).result = Except.error Err.retryExhausted ∧
      (R.forward input st).attempts = [] ∧ (R.forward input st).adapter = st := by
  have h0 : R.N.toNat = 0 := by omega
  unfold Retrier.forward
  rw [h0]
  exact ⟨rfl, rfl, rfl⟩

/-- Witness for C10: `c10R` (`N = 0`) fails immediately with no attempts. -/
theorem retrier_nonpositive_N_witness :
    (c10R.forward qaInput none).result = Except.error Err.retryExhausted ∧
      (c10R.forward qaInput none).attempts = [] ∧
      (c10R.forward qaInput none).adapter = none :=
  retrier_nonpositive_N c10R qaInput none (by decide)

/-- C4: in a run from an unmodified mechanism, the first attempt's hint is
absent, every attempt's request is exactly the one its own hint determines
(plain request for no hint; for hint `s`, the derived signature with the one
extra `hint_` field and payload entry exactly `s`), each attempt's hint is
threaded from exactly the immediately preceding attempt's note (never an older
one, never accumulated), and an augmented request carries exactly one `hint_`
payload entry. -/
theorem retrier_feedback_threading {O : Type} (R : Retrier O) (input : Inputs)
    (hK : input.all (fun p => p.1 != "hint_") = true) :
    hintsChained none (R.forward input none).attempts = true ∧
    (∀ log, (R.forward input none).attempts.head? = some log → log.hint = none) ∧
    (∀ log ∈ (R.forward input none).attempts, ∀ r ∈ log.requests,
        r = hintRequest R.module.sig input log.hint) ∧
    (∀ log ∈ (R.forward input none).attempts, ∀ s, log.hint = some s →
        ∀ r ∈ log.requests,
          r.sig = R.module.sig ++ ["hint_"] ∧
          r.inputs.filter (fun p => p.1 == "hint_") = [("hint_", s)]) := by
  have hch : hintsChained none (R.forward input none).attempts = true := by
    simpa using R.loop_chained input R.N.toNat none none 0
  have hshape := R.loop_requests_shape input hK R.N.toNat none 0
  refine ⟨hch, ?_, hshape, ?_⟩
  · intro log hhead
    have := hintsChained_head none _ hch log hhead
    simpa [normHint] using this
  · intro log hlog s hs r hr
    have hre := hshape log hlog r hr
    rw [hs] at hre
    rw [hre]
    refine ⟨rfl, ?_⟩
    show (input ++ [("hint_", s)]).filter (fun p => p.1 == "hint_") = [("hint_", s)]
    rw [List.filter_append]
    have hfil : input.filter (fun p => p.1 == "hint_") = [] := by
      rw [List.filter_eq_nil_iff]
      intro a ha
      simp only [List.all_eq_true, bne_iff_ne, ne_eq] at hK
      simp [hK a ha]
    rw [hfil]
    simp

/-- Witness for C4: in the `c2R` run (note `"X"` on failure, `N = 2`), the
first attempt's request has no hint field and the second carries `"X"`. -/
theorem retrier_feedback_threading_witness :
    hintsChained none (c2R.forward qaInput none).attempts = true ∧
    (∀ log, (c2R.forward qaInput none).attempts.head? = some log → log.hint = none) ∧
    (∀ log ∈ (c2R.forward qaInput none).attempts, ∀ r ∈ log.requests,
        r = hintRequest c2R.module.sig qaInput log.hint) ∧
    (∀ log ∈ (c2R.forward qaInput none).attempts, ∀ s, log.hint = some s →
        ∀ r ∈ log.requests,
          r.sig = c2R.module.sig ++ ["hint_"] ∧
          r.inputs.filter (fun p => p.1 == "hint_") = [("hint_", s)]) :=
  retrier_feedback_threading c2R qaInput (by decide)

/-- If an element of a run's attempt list has an `ok` outcome whose score
meets the threshold, that attempt is the run's last and the run returns its
output. -/
theorem Retrier.loop_pass_last {O : Type} (R : Retrier O) (input : Inputs) :
    ∀ (fuel : Nat) (st : Option Adapter) (prior : Option Feedback) (k : Nat),
      ∀ log ∈ (R.loop input st prior k fuel).attempts, ∀ (o : O) (fb : Feedback),
        log.outcome = Except.ok (o, fb) → R.threshold ≤ fb.evaluation →
          (R.loop input st prior k fuel).result = Except.ok o ∧
            (R.loop input st prior k fuel).attempts.getLast? = some log := by
  intro fuel
  induction fuel with
  | zero => intro st prior k log hlog; simp [Retrier.loop] at hlog
  | succ n ih =>
    intro st prior k log hlog o fb hout hge
    simp only [Retrier.loop] at hlog ⊢
    split at hlog
    next e heq =>
      simp only [List.mem_singleton] at hlog
      subst hlog
      rw [heq] at hout
      exact absurd hout (by simp)
    next o1 fb1 heq =>
      split at hlog
      next hth =>
        simp only [List.mem_singleton] at hlog
        subst hlog
        rw [heq] at hout
        injection hout with hout
        injection hout with h1 h2
        subst h1
        rw [if_pos hth]
        exact ⟨rfl, by simp⟩
      next hth =>
        simp only [List.mem_cons] at hlog
        rcases hlog with hlog | hlog
        · subst hlog
          rw [heq] at hout
          injection hout with hout
          injection hout with h1 h2
          subst h2
          exact absurd hge hth
        · obtain ⟨h1, h2⟩ := ih st (some fb1)
            (k + (R.attempt input st prior k).requests.length) log hlog o fb hout hge
          rw [if_neg hth]
          refine ⟨h1, ?_⟩
          cases hr : (R.loop input st (some fb1)
              (k + (R.attempt input st prior k).requests.length) n).attempts with
          | nil => rw [hr] at h2; simp at h2
          | cons b l =>
            rw [hr] at h2
            rw [List.getLast?_cons_cons]
            exact h2

/-- If a run returns an output, its attempt list ends with an attempt whose
`ok` outcome carries that output and a score meeting the threshold. -/
theorem Retrier.loop_ok_last {O : Type} (R : Retrier O) (input : Inputs) :
    ∀ (fuel : Nat) (st : Option Adapter) (prior : Option Feedback) (k : Nat) (o : O),
      (R.loop input st prior k fuel).result = Except.ok o →
        ∃ log fb, (R.loop input st prior k fuel).attempts.getLast? = some log ∧
          log.outcome = Except.ok (o, fb) ∧ R.threshold ≤ fb.evaluation := by
  intro fuel
  induction fuel with
  | zero =>
    intro st prior k o hres
    simp [Retrier.loop] at hres
  | succ n ih =>
    intro st prior k o hres
    simp only [Retrier.loop] at hres ⊢
    split at hres
    next e heq => simp at hres
    next o1 fb1 heq =>
      split at hres
      next hth =>
        have h1 : o1 = o := by simpa using hres
        subst h1
        rw [if_pos hth]
        exact ⟨R.attempt input st prior k, fb1, by simp, heq, hth⟩
      next hth =>
        obtain ⟨log, fb, hlast, hout2, hge⟩ := ih st (some fb1)
          (k + (R.attempt input st prior k).requests.length) o hres
        rw [if_neg hth]
        refine ⟨log, fb, ?_, hout2, hge⟩
        cases hr : (R.loop input st (some fb1)
            (k + (R.attempt input st prior k).requests.length) n).attempts with
        | nil => rw [hr] at hlast; simp at hlast
        | cons b l =>
          rw [hr] at hlast
          rw [List.getLast?_cons_cons]
          exact hlast

/-- Every attempt of a run other than the final one has an `ok` outcome whose
score is strictly below the threshold (the loop only continues past a failed
attempt). -/
theorem Retrier.loop_dropLast_failed {O : Type} (R : Retrier O) (input : Inputs) :
    ∀ (fuel : Nat) (st : Option Adapter) (prior : Option Feedback) (k : Nat),
      ∀ log ∈ (R.loop input st prior k fuel).attempts.dropLast,
        ∃ o fb, log.outcome = Except.ok (o, fb) ∧ fb.evaluation < R.threshold := by
  intro fuel
  induction fuel with
  | zero => intro st prior k log hlog; simp [Retrier.loop] at hlog
  | succ n ih =>
    intro st prior k log hlog
    simp only [Retrier.loop] at hlog
    split at hlog
    next e heq => simp at hlog
    next o1 fb1 heq =>
      split at hlog
      next hth => simp at hlog
      next hth =>
        cases hr : (R.loop input st (some fb1)
            (k + (R.attempt input st prior k).requests.length) n).attempts with
        | nil =>
          rw [hr] at hlog
          simp at hlog
        | cons b l =>
          rw [hr] at hlog
          rw [List.dropLast_cons₂] at hlog
          simp only [List.mem_cons] at hlog
          rcases hlog with hlog | hlog
          · subst hlog
            exact ⟨o1, fb1, heq, not_le.mp hth⟩
          · exact ih st (some fb1) (k + (R.attempt input st prior k).requests.length) log
              (by rw [hr]; exact hlog)

/-- C6: `Retrier.forward` returns the output of the first attempt whose
feedback score is at least the threshold, performing no further attempts:
every attempt except the last scores strictly below the threshold (rejected),
any attempt scoring at or above the threshold (`>=`, so equality is accepted)
is the last and its output is the run's result, a returned output always comes
from such a passing final attempt, and in particular with `N ≥ 1` a feedback
module that always scores exactly the threshold makes the run succeed on
attempt 1 with only a passthrough scope, never opening an augmentation
scope. -/
theorem retrier_first_passing_attempt {O : Type} (R : Retrier O) (input : Inputs)
    (st : Option Adapter) :
    (∀ log ∈ (R.forward input st).attempts.dropLast,
        ∃ o fb, log.outcome = Except.ok (o, fb) ∧ fb.evaluation < R.threshold) ∧
    (∀ log ∈ (R.forward input st).attempts, ∀ (o : O) (fb : Feedback),
        log.outcome = Except.ok (o, fb) → R.threshold ≤ fb.evaluation →
          (R.forward input st).result = Except.ok o ∧
            (R.forward input st).attempts.getLast? = some log) ∧
    (∀ o : O, (R.forward input st).result = Except.ok o →
        ∃ log fb, (R.forward input st).attempts.getLast? = some log ∧
          log.outcome = Except.ok (o, fb) ∧ R.threshold ≤ fb.evaluation) ∧
    (1 ≤ R.N → (∀ o : O, (R.feedback_module input o).evaluation = R.threshold) →
        ∀ o : O, (R.module.call st input 0).1 = Except.ok o →
          (R.forward input st).result = Except.ok o ∧
            (R.forward input st).attempts.map AttemptLog.hint = [none]) := by
  refine ⟨R.loop_dropLast_failed input R.N.toNat st none 0,
    R.loop_pass_last input R.N.toNat st none 0,
    R.loop_ok_last input R.N.toNat st none 0, ?_⟩
  intro hN hEq o hOk
  obtain ⟨m, hm⟩ : ∃ m, R.N.toNat = m + 1 := ⟨R.N.toNat - 1, by omega⟩
  have hout : (R.attempt input st none 0).outcome = .ok (o, R.feedback_module input o) :=
    (R.attempt_outcome_ok input st none 0 o _).mpr ⟨hOk, rfl⟩
  have hth : R.threshold ≤ (R.feedback_module input o).evaluation := le_of_eq (hEq o).symm
  unfold Retrier.forward
  rw [hm, R.loop_succ_ok input st none 0 m o (R.feedback_module input o) hout, if_pos hth]
  refine ⟨rfl, ?_⟩
  show [(R.attempt input st none 0).hint] = [none]
  rw [Retrier.attempt_hint]
  rfl

/-- Witness for C6: in the `c6R` run (`N = 3`), attempt 1 scores below the
threshold, attempt 2 is the first attempt scoring at the threshold, and the
run returns attempt 2's output with no third attempt. -/
theorem retrier_first_passing_attempt_witness :
    (c6R.forward qaInput none).result = Except.ok 3 ∧
      (c6R.forward qaInput none).attempts.getLast? = some c6Log :=
  (retrier_first_passing_attempt c6R qaInput none).2.1 c6Log
    (by
      rw [show (c6R.forward qaInput none).attempts
          = [c6R.attempt qaInput none none 0, c6Log] from rfl]
      simp)
    3 ⟨1, none⟩ rfl (by decide)

/-- C8: an error raised during an attempt's predictor invocation is not
caught by the retrier: that attempt is the last one (remaining attempts are
aborted) and the run's result is that very error, not an output and not the
exhaustion error. -/
theorem retrier_error_propagates {O : Type} (R : Retrier O) (input : Inputs)
    (st : Option Adapter) :
    ∀ log ∈ (R.forward input st).attempts, ∀ e : Err, log.outcome = Except.error e →
      (R.forward input st).result = Except.error e ∧
        (R.forward input st).attempts.getLast? = some log :=
  fun log hlog e hout => R.loop_error_abort input R.N.toNat st none 0 log hlog e hout

/-- Witness for C8: in the `c8R` run (`N = 3`, engine raises on the second
attempt), the error aborts the run at attempt 2 and is surfaced as-is. -/
theorem retrier_error_propagates_witness :
    (c8R.forward qaInput none).result = Except.error (Err.engineFailure 9) ∧
      (c8R.forward qaInput none).attempts.getLast? = some c8Log :=
  retrier_error_propagates c8R qaInput none c8Log
    (by
      rw [show (c8R.forward qaInput none).attempts
          = [c8R.attempt qaInput none none 0, c8Log] from rfl]
      simp)
    (Err.engineFailure 9) rfl

/-- C9: a blank previous note (absent or empty) opens a passthrough scope —
`retry_context` leaves the mechanism unchanged, the following attempt's hint is
absent and its requests are the plain request with no `hint_` field — while an
augmented scope arises only from a non-empty note, which becomes the next
attempt's hint. -/
theorem retrier_blank_note_passthrough {O : Type} (R : Retrier O) (input : Inputs)
    (hK : input.all (fun p => p.1 != "hint_") = true) :
    (∀ st2 : Option Adapter,
        retry_context st2 none = st2 ∧ retry_context st2 (some "") = st2) ∧
    List.Chain' (fun a b =>
        (isBlank (noteOf a) = true → b.hint = none) ∧
        ∀ s, noteOf a = some s → s ≠ "" → b.hint = some s)
      (R.forward input none).attempts ∧
    (∀ log ∈ (R.forward input none).attempts, log.hint = none →
        ∀ r ∈ log.requests, r = Request.mk R.module.sig input ∧
          r.inputs.all (fun p => p.1 != "hint_") = true) := by
  refine ⟨fun st2 => ⟨rfl, rfl⟩, ?_, ?_⟩
  · have hch : hintsChained none (R.forward input none).attempts = true := by
      simpa using R.loop_chained input R.N.toNat none none 0
    have hcha := hintsChained_chain _ none hch
    refine List.Chain'.imp ?_ hcha
    intro a b hab
    constructor
    · intro hbl
      rw [hab, normHint_of_blank _ hbl]
    · intro s hs hne
      rw [hab, hs, normHint_some_ne s hne]
  · intro log hlog hhint r hr
    have hre := R.loop_requests_shape input hK R.N.toNat none 0 log hlog r hr
    rw [hhint] at hre
    exact ⟨hre, by rw [hre]; exact hK⟩

/-- Witness for C9 at the `c2R` run. -/
theorem retrier_blank_note_passthrough_witness :
    (∀ st2 : Option Adapter,
        retry_context st2 none = st2 ∧ retry_context st2 (some "") = st2) ∧
    List.Chain' (fun a b =>
        (isBlank (noteOf a) = true → b.hint = none) ∧
        ∀ s, noteOf a = some s → s ≠ "" → b.hint = some s)
      (c2R.forward qaInput none).attempts ∧
    (∀ log ∈ (c2R.forward qaInput none).attempts, log.hint = none →
        ∀ r ∈ log.requests, r = Request.mk c2R.module.sig qaInput ∧
          r.inputs.all (fun p => p.1 != "hint_") = true) :=
  retrier_blank_note_passthrough c2R qaInput (by decide)
